import Mathlib

/-!
# Verification of the crop-disease prediction service

Shallow embedding of the two source files of the repository
(`utils.py` and `main.py`) and proofs of the specification's claims
about them.

Python strings are modelled as Lean `String`s, with the Python string
operations (`lower`, `strip`, `in`, `startswith`) embedded explicitly
over the character list so that they compute by kernel reduction.
Machine floats are modelled as exact rationals (`ℚ`); `numpy` arrays as
nested lists.  Filesystem access and the two external
library calls (`keras.load_model`, `json.load` of a labels file) are
modelled as an explicit environment of abstract functions, since the
repository treats them as opaque effects.
-/

/-! ## Python string primitives (embedding of `str.lower`, `str.strip`,
`in`, `str.startswith`) -/

/-- Embedding of Python `str.lower()` (ASCII case folding, as used by the
router on crop names). -/
def pyLower (s : String) : String := String.mk (s.toList.map Char.toLower)

/-- Embedding of Python `str.strip()` on the character list: drop leading
and trailing whitespace. -/
def pyStripL (l : List Char) : List Char :=
  ((l.dropWhile Char.isWhitespace).reverse.dropWhile Char.isWhitespace).reverse

/-- Embedding of Python `str.strip()`. -/
def pyStrip (s : String) : String := String.mk (pyStripL s.toList)

/-- Embedding of Python's substring test `needle in hay`: `needle` is a
prefix of some suffix of `hay`. -/
def isSubstring (needle : List Char) : List Char → Bool
  | [] => needle.isPrefixOf []
  | c :: rest => needle.isPrefixOf (c :: rest) || isSubstring needle rest

/-- Embedding of Python `s.startswith(p)`. -/
def pyStartsWith (s p : String) : Bool := p.toList.isPrefixOf s.toList

/-! ## `utils.choose_model_key_from_crop` -/

/-- Embedding of `utils.choose_model_key_from_crop`:
lower-case and strip the crop name, return `"rice"` if `"rice"` occurs as
a substring, else `"banana"` if `"banana"` occurs, else `"plant"`. -/
def choose_model_key_from_crop (crop_name : String) : String :=
  if isSubstring "rice".toList (pyStrip (pyLower crop_name)).toList then "rice"
  else if isSubstring "banana".toList (pyStrip (pyLower crop_name)).toList then "banana"
  else "plant"

/-! ## Images and `utils.preprocess_image_bytes`

An image (the result of `PIL.Image.open(...).convert("RGB")`) is a list
of pixel rows, each pixel an RGB triple of 8-bit channel values. -/

/-- A decoded RGB image: rows of RGB pixels. -/
structure Img where
  pix : List (List (Nat × Nat × Nat))
deriving DecidableEq

/-- Image height (number of rows), as reported by `PIL`/`numpy`. -/
def Img.height (i : Img) : Nat := i.pix.length

/-- Image width (number of columns). -/
def Img.width (i : Img) : Nat := (i.pix.headD []).length

/-- Well-formedness of a decoded image: positive dimensions, rectangular
rows, and 8-bit channels.  Every image produced by a successful
`PIL.Image.open(...).convert("RGB")` satisfies this. -/
def Img.WF (i : Img) : Prop :=
  0 < i.height ∧ 0 < i.width ∧
  (∀ row ∈ i.pix, row.length = i.width) ∧
  (∀ row ∈ i.pix, ∀ p ∈ row, p.1 < 256 ∧ p.2.1 < 256 ∧ p.2.2 < 256)

instance (i : Img) : Decidable i.WF := by
  unfold Img.WF; infer_instance

/-- Embedding of `PIL.Image.resize((w, h))`.  The interpolation kernel is
abstracted to nearest-neighbour sampling; the development only relies on
the output dimensions and on the fact that the resized image's channels
are again 8-bit values (PIL stores a resized RGB image with 8-bit
channels whatever the resampling filter). -/
def Img.resize (img : Img) (w h : Nat) : Img :=
  ⟨(List.range h).map (fun y =>
    (List.range w).map (fun x =>
      (img.pix.getD (y * img.height / h) []).getD (x * img.width / w) (0, 0, 0)))⟩

/-- Embedding of `np.array(img).astype("float32") / 255.0`: the
height × width × 3 array of channel values scaled to `[0, 1]`. -/
def imgToArr (img : Img) : List (List (List ℚ)) :=
  img.pix.map (fun row => row.map (fun p =>
    [(p.1 : ℚ) / 255, (p.2.1 : ℚ) / 255, (p.2.2 : ℚ) / 255]))

/-- Core of `utils.preprocess_image_bytes` on an already decoded image:
resize to `(target_size[1], target_size[0])` (PIL takes width first),
scale to `[0, 1]` and prepend a batch dimension of size 1
(`np.expand_dims(arr, axis=0)`). -/
def preprocess_core (img : Img) (target_size : Nat × Nat) :
    List (List (List (List ℚ))) :=
  [imgToArr (img.resize target_size.2 target_size.1)]

/-- Embedding of `utils.preprocess_image_bytes`.  The byte argument is
represented by the result of decoding it: `none` when
`PIL.Image.open` fails (raising, uncaught), `some img` otherwise. -/
def preprocess_image_bytes (decoded : Option Img) (target_size : Nat × Nat) :
    Option (List (List (List (List ℚ)))) :=
  decoded.map (fun img => preprocess_core img target_size)

/-- Shape predicate for the 4-dimensional nested-list tensor. -/
def HasShape4 (t : List (List (List (List ℚ)))) (a b c d : Nat) : Prop :=
  t.length = a ∧ ∀ p ∈ t, p.length = b ∧ ∀ r ∈ p, r.length = c ∧ ∀ px ∈ r, px.length = d

/-- All scalar entries of the 4-dimensional tensor lie in `[0, 1]`. -/
def AllInUnit (t : List (List (List (List ℚ)))) : Prop :=
  ∀ p ∈ t, ∀ r ∈ p, ∀ px ∈ r, ∀ q ∈ px, 0 ≤ q ∧ q ≤ 1

/-! ## `utils.load_models`

The filesystem and the two external library calls are an abstract
environment: `exists_` models `os.path.exists`; `loadKerasModel` models
`tensorflow.keras.models.load_model`, returning `none` when it raises
(the handle itself is opaque, modelled as a `Nat` token);
`readLabels` models `open(labels_path)` + `json.load`, returning `none`
when either raises, and otherwise the parsed JSON document classified
into the three shapes the code distinguishes. -/

/-- A parsed labels JSON document, as classified by
`isinstance(labels_json, dict) / isinstance(labels_json, list)`:
a JSON array of strings, a JSON object (association list with distinct
keys), or any other JSON value. -/
inductive LabelsJson where
  | arr (xs : List String)
  | obj (kvs : List (String × String))
  | other
deriving DecidableEq

/-- The abstract environment of `load_models`. -/
structure Env where
  exists_ : String → Bool
  loadKerasModel : String → Option Nat
  readLabels : String → Option LabelsJson

/-- One config entry's value, `{"path": ..., "labels": ...,
"target_size": ...}`; `info.get(k)` yields `none` when the key is
absent. -/
structure EntryInfo where
  path : Option String
  labels : Option String
  target_size : Option (List Nat)
deriving DecidableEq

/-- A successfully loaded registry entry,
`{"model": ..., "labels": ..., "target_size": ...}`. -/
structure LoadedEntry where
  model : Nat
  labels : List String
  target_size : List Nat
deriving DecidableEq

/-- The errors `load_models` can raise: `FileNotFoundError` for a missing
config file, `TypeError` from `os.path.normpath(None)`, and the final
`RuntimeError` when no model loaded. -/
inductive LoadErr where
  | configNotFound
  | typeError
  | noModelsLoaded
deriving DecidableEq

/-- Embedding of `os.path.normpath(info.get(k))`: raises `TypeError` on
`None`; the path-string normalisation itself is abstracted as the
identity (no claim depends on slash rewriting). -/
def normpath : Option String → Except LoadErr String
  | none => .error .typeError
  | some s => .ok s

/-- Embedding of the labels-JSON shape dispatch in `load_models`:
a `dict` is converted by `[labels_json[str(i)] for i in range(len(labels_json))]`
(`none` on a `KeyError`), a `list` is kept as is, anything else raises
(`none`, caught and skipped by the caller). -/
def parseLabelsJson : LabelsJson → Option (List String)
  | .arr xs => some xs
  | .obj kvs => (List.range kvs.length).mapM (fun i => kvs.lookup (toString i))
  | .other => none

/-- Embedding of one iteration of the `for key, info in cfg.items()` loop
body of `load_models`: `.ok none` means the entry was skipped with a
warning, `.ok (some e)` that `e` is inserted, `.error` that an uncaught
exception aborts the whole call. -/
def processEntry (env : Env) (info : EntryInfo) : Except LoadErr (Option LoadedEntry) :=
  match normpath info.path with
  | .error e => .error e
  | .ok model_path =>
    match normpath info.labels with
    | .error e => .error e
    | .ok labels_path =>
      if model_path = "" ∨ env.exists_ model_path = false then .ok none
      else if labels_path = "" ∨ env.exists_ labels_path = false then .ok none
      else
        match env.loadKerasModel model_path with
        | none => .ok none
        | some model =>
          match env.readLabels labels_path with
          | none => .ok none
          | some lj =>
            match parseLabelsJson lj with
            | none => .ok none
            | some labels => .ok (some ⟨model, labels, info.target_size.getD [224, 224]⟩)

/-- The whole `for` loop of `load_models`: process the config entries in
order, collecting the successfully loaded ones. -/
def processAll (env : Env) : List (String × EntryInfo) → Except LoadErr (List (String × LoadedEntry))
  | [] => .ok []
  | (key, info) :: rest =>
    match processEntry env info with
    | .error e => .error e
    | .ok none => processAll env rest
    | .ok (some entry) =>
      match processAll env rest with
      | .error e => .error e
      | .ok ms => .ok ((key, entry) :: ms)

/-- Embedding of `utils.load_models`.  `cfg` is the parsed content of the
config file (a JSON object, hence an association list with distinct
keys); parsing errors of the config JSON itself are out of scope of the
claims and not modelled. -/
def load_models (env : Env) (config_path : String) (cfg : List (String × EntryInfo)) :
    Except LoadErr (List (String × LoadedEntry)) :=
  if env.exists_ config_path = false then .error .configNotFound
  else
    match processAll env cfg with
    | .error e => .error e
    | .ok ms => if ms.isEmpty then .error .noModelsLoaded else .ok ms

/-! ## `main.predict`

The Keras model handle used by the endpoint is its forward pass: a
function from the preprocessed 4-D input tensor to the squeezed output
vector.  `model.predict(x)` on the single-item batch returns a
`(1, C)` array and `np.array(preds).squeeze()` reduces it to the
`(C,)` score vector, which is what `forward` produces directly. -/

/-- A registry entry as used by `main.predict`: the model's forward
pass, its labels, and its `(height, width)` target size. -/
structure PModelEntry where
  forward : List (List (List (List ℚ))) → List ℚ
  labels : List String
  target_size : Nat × Nat

/-- The outcomes of `predict` other than a JSON response: the two
explicit `HTTPException(400)`s and the uncaught exceptions that surface
as HTTP 500 (a `PIL` decode failure, `np.argmax` on an empty vector,
and the unguarded label lookup's `IndexError`). -/
inductive PredictErr where
  | invalidContentType
  | unknownCrop
  | decodeError
  | emptyOutput
  | indexError
deriving DecidableEq

/-- The JSON body returned by a successful `predict` call. -/
structure PredictionResult where
  crop : String
  model_used : String
  predicted_disease : String
  confidence : ℚ
deriving DecidableEq

/-- Embedding of `int(preds.argmax())`: index of the first occurrence of
the maximum (`none` on an empty vector, where `np.argmax` raises). -/
def argmaxGo : List ℚ → Nat → Nat → ℚ → Nat
  | [], _, bi, _ => bi
  | x :: xs, i, bi, bv =>
    if bv < x then argmaxGo xs (i + 1) i x else argmaxGo xs (i + 1) bi bv

/-- First-occurrence argmax of a score vector. -/
def argmax : List ℚ → Option Nat
  | [] => none
  | x :: xs => some (argmaxGo xs 1 0 x)

/-- Round-half-to-even to an integer (Python's `round` tie rule). -/
def roundHalfEven (q : ℚ) : ℤ :=
  if q - ⌊q⌋ < 1 / 2 then ⌊q⌋
  else if 1 / 2 < q - ⌊q⌋ then ⌊q⌋ + 1
  else if ⌊q⌋ % 2 = 0 then ⌊q⌋ else ⌊q⌋ + 1

/-- Embedding of Python `round(x, 4)` on the exact rational model of the
float. -/
def round4 (q : ℚ) : ℚ := (roundHalfEven (q * 10000) : ℚ) / 10000

/-- The inference tail of `main.predict`, once routing and decoding have
succeeded: run the forward pass on the preprocessed image, take the
argmax of the score vector, read the raw score there (`preds[idx]`,
always in range since the index comes from `argmax`), look up the label
at the same index (unguarded — `IndexError` when out of range) and
build the JSON response with the confidence rounded to 4 decimals. -/
def predictCore (crop key : String) (m : PModelEntry) (img : Img) :
    Except PredictErr PredictionResult :=
  match argmax (m.forward (preprocess_core img m.target_size)) with
  | none => .error .emptyOutput
  | some idx =>
    match m.labels.get? idx with
    | none => .error .indexError
    | some label =>
      .ok ⟨crop, key, label,
        round4 ((m.forward (preprocess_core img m.target_size)).getD idx 0)⟩

/-- Embedding of the `POST /predict` handler `main.predict`.  The
uploaded file is represented by its declared content type and by the
result of decoding its bytes (`none` when `PIL` would raise); `models`
is the module-level `MODELS` registry. -/
def predict (models : List (String × PModelEntry)) (crop : String)
    (contentType : String) (decoded : Option Img) :
    Except PredictErr PredictionResult :=
  if pyStartsWith contentType "image/" = false then .error .invalidContentType
  else
    match models.lookup (choose_model_key_from_crop crop) with
    | none => .error .unknownCrop
    | some m =>
      match decoded with
      | none => .error .decodeError
      | some img => predictCore crop (choose_model_key_from_crop crop) m img

/-! ## Concrete instances used in the example theorems -/

/-- A 1×1 decoded RGB image. -/
def img1 : Img := ⟨[[(10, 20, 30)]]⟩

/-- A decoded RGB image of width 100 and height 50 (the spec's
"100×50 RGB image" example). -/
def img100x50 : Img := ⟨List.replicate 50 (List.replicate 100 (0, 0, 0))⟩

/-- A registry entry whose model emits a raw score above 1. -/
def eRaw : PModelEntry := ⟨fun _ => [5 / 2, 1 / 4], ["a", "b"], (1, 1)⟩

/-- A registry entry with three labels but a model of output width 2. -/
def eWide : PModelEntry := ⟨fun _ => [1 / 4, 3 / 4], ["a", "b", "c"], (1, 1)⟩

/-- A registry entry with one label but a model of output width 2. -/
def eShort : PModelEntry := ⟨fun _ => [1 / 4, 3 / 4], ["a"], (1, 1)⟩

/-- An environment in which every path exists but every model load
fails. -/
def envNoLoad : Env := ⟨fun _ => true, fun _ => none, fun _ => none⟩

/-- An environment in which no path exists. -/
def envNothing : Env := ⟨fun _ => false, fun _ => none, fun _ => none⟩

/-- `needle` occurs as a contiguous substring of `t` (Python's `in`). -/
def OccursIn (needle t : List Char) : Prop := ∃ l r, t = l ++ needle ++ r

/-! # Theorems -/

theorem isPrefixOf_eq_true_iff (n h : List Char) :
    n.isPrefixOf h = true ↔ ∃ r, n ++ r = h := by
  induction n generalizing h with
  | nil => simp [List.isPrefixOf]
  | cons a as ih =>
    cases h with
    | nil => simp [List.isPrefixOf]
    | cons b bs =>
      simp only [List.isPrefixOf, Bool.and_eq_true, beq_iff_eq, ih,
        List.cons_append, List.cons.injEq]
      constructor
      · rintro ⟨rfl, r, rfl⟩
        exact ⟨r, rfl, rfl⟩
      · rintro ⟨r, rfl, h2⟩
        exact ⟨rfl, r, h2⟩

theorem isSubstring_eq_true_iff (n h : List Char) :
    isSubstring n h = true ↔ OccursIn n h := by
  induction h with
  | nil =>
    simp only [isSubstring, isPrefixOf_eq_true_iff, OccursIn]
    constructor
    · rintro ⟨r, hr⟩
      rcases List.append_eq_nil.mp hr with ⟨rfl, rfl⟩
      exact ⟨[], [], rfl⟩
    · rintro ⟨l, r, hlr⟩
      have h2 := List.append_eq_nil.mp hlr.symm
      rcases List.append_eq_nil.mp h2.1 with ⟨rfl, rfl⟩
      exact ⟨[], rfl⟩
  | cons c cs ih =>
    simp only [isSubstring, Bool.or_eq_true, isPrefixOf_eq_true_iff, ih, OccursIn]
    constructor
    · rintro (⟨r, hr⟩ | ⟨l, r, hlr⟩)
      · exact ⟨[], r, hr.symm⟩
      · exact ⟨c :: l, r, by simp [hlr]⟩
    · rintro ⟨l, r, hlr⟩
      cases l with
      | nil => exact Or.inl ⟨r, by simpa using hlr.symm⟩
      | cons a l2 =>
        rcases List.cons.injEq .. ▸ hlr with ⟨rfl, h2⟩
        exact Or.inr ⟨l2, r, by simpa using h2⟩

/-- C1: for every input string, `choose_model_key_from_crop` first
lower-cases and strips it; it returns `"rice"` when `"rice"` occurs as a
substring of the result, otherwise `"banana"` when `"banana"` occurs,
and otherwise `"plant"`, in particular on the empty input. -/
theorem choose_model_key_from_crop_spec (s : String) :
    (OccursIn "rice".toList (pyStrip (pyLower s)).toList →
      choose_model_key_from_crop s = "rice") ∧
    (¬ OccursIn "rice".toList (pyStrip (pyLower s)).toList →
      OccursIn "banana".toList (pyStrip (pyLower s)).toList →
      choose_model_key_from_crop s = "banana") ∧
    (¬ OccursIn "rice".toList (pyStrip (pyLower s)).toList →
      ¬ OccursIn "banana".toList (pyStrip (pyLower s)).toList →
      choose_model_key_from_crop s = "plant") ∧
    choose_model_key_from_crop "" = "plant" := by
  refine ⟨?_, ?_, ?_, by decide⟩
  · intro h
    have hr : isSubstring "rice".toList (pyStrip (pyLower s)).toList = true :=
      (isSubstring_eq_true_iff _ _).mpr h
    unfold choose_model_key_from_crop
    rw [hr]
    simp
  · intro hn h
    have hr : isSubstring "rice".toList (pyStrip (pyLower s)).toList = false :=
      Bool.eq_false_iff.mpr (mt (isSubstring_eq_true_iff _ _).mp hn)
    have hb : isSubstring "banana".toList (pyStrip (pyLower s)).toList = true :=
      (isSubstring_eq_true_iff _ _).mpr h
    unfold choose_model_key_from_crop
    rw [hr, hb]
    simp
  · intro hn hnb
    have hr : isSubstring "rice".toList (pyStrip (pyLower s)).toList = false :=
      Bool.eq_false_iff.mpr (mt (isSubstring_eq_true_iff _ _).mp hn)
    have hb : isSubstring "banana".toList (pyStrip (pyLower s)).toList = false :=
      Bool.eq_false_iff.mpr (mt (isSubstring_eq_true_iff _ _).mp hnb)
    unfold choose_model_key_from_crop
    rw [hr, hb]
    simp

/-- Witness for C1 at the concrete crop name `"  Basmati RICE "`. -/
theorem choose_model_key_from_crop_spec_witness :
    OccursIn "rice".toList (pyStrip (pyLower "  Basmati RICE ")).toList ∧
    choose_model_key_from_crop "  Basmati RICE " = "rice" :=
  ⟨⟨"basmati ".toList, [], by decide⟩,
    (choose_model_key_from_crop_spec "  Basmati RICE ").1
      ⟨"basmati ".toList, [], by decide⟩⟩

theorem getD_mem_or {α : Type} (l : List α) (n : Nat) (d : α) :
    l.getD n d = d ∨ l.getD n d ∈ l := by
  induction l generalizing n with
  | nil => left; simp
  | cons a t ih =>
    cases n with
    | zero => right; simp
    | succ m =>
      rcases ih m with h | h
      · left; simpa using h
      · right; simp only [List.getD_cons_succ]
        exact List.mem_cons_of_mem a h

theorem unit_of_channel (c : Nat) (hc : c ≤ 255) :
    0 ≤ (c : ℚ) / 255 ∧ (c : ℚ) / 255 ≤ 1 := by
  constructor
  · positivity
  · rw [div_le_one (by norm_num)]
    exact_mod_cast hc

theorem resize_pixel_bound (img : Img) (hwf : img.WF) (sy sx : Nat) :
    ((img.pix.getD sy []).getD sx (0, 0, 0)).1 ≤ 255 ∧
    ((img.pix.getD sy []).getD sx (0, 0, 0)).2.1 ≤ 255 ∧
    ((img.pix.getD sy []).getD sx (0, 0, 0)).2.2 ≤ 255 := by
  rcases getD_mem_or img.pix sy [] with h | h
  · rw [h]; simp
  · rcases getD_mem_or (img.pix.getD sy []) sx (0, 0, 0) with h2 | h2
    · rw [h2]; simp
    · have h3 := hwf.2.2.2 _ h _ h2
      exact ⟨by omega, by omega, by omega⟩

/-- C2: for every decodable image and target size `(h, w)`,
`preprocess_image_bytes` returns a 4-D tensor of shape `(1, h, w, 3)`
all of whose entries lie in `[0, 1]`. -/
theorem preprocess_image_bytes_spec (img : Img) (h w : Nat)
    (t : List (List (List (List ℚ)))) (hwf : img.WF)
    (ht : preprocess_image_bytes (some img) (h, w) = some t) :
    HasShape4 t 1 h w 3 ∧ AllInUnit t := by
  have ht2 : t = preprocess_core img (h, w) := by
    have h3 : some (preprocess_core img (h, w)) = some t := ht
    exact (Option.some_inj.mp h3).symm
  subst ht2
  constructor
  · refine ⟨rfl, ?_⟩
    intro p hp
    simp only [preprocess_core, List.mem_singleton] at hp
    subst hp
    refine ⟨by simp [imgToArr, Img.resize], ?_⟩
    intro r hr
    simp only [imgToArr, Img.resize, List.map_map, List.mem_map] at hr
    obtain ⟨y, hy, rfl⟩ := hr
    refine ⟨by simp, ?_⟩
    intro px hpx
    simp only [Function.comp, List.map_map, List.mem_map] at hpx
    obtain ⟨x, hx, rfl⟩ := hpx
    rfl
  · intro p hp
    simp only [preprocess_core, List.mem_singleton] at hp
    subst hp
    intro r hr
    simp only [imgToArr, Img.resize, List.map_map, List.mem_map] at hr
    obtain ⟨y, hy, rfl⟩ := hr
    intro px hpx
    simp only [Function.comp, List.map_map, List.mem_map] at hpx
    obtain ⟨x, hx, rfl⟩ := hpx
    intro q hq
    have hb := resize_pixel_bound img hwf (y * img.height / h) (x * img.width / w)
    simp only [Function.comp, List.mem_cons, List.not_mem_nil, or_false] at hq
    rcases hq with rfl | rfl | rfl
    · exact unit_of_channel _ hb.1
    · exact unit_of_channel _ hb.2.1
    · exact unit_of_channel _ hb.2.2

theorem img100x50_wf : img100x50.WF := by
  refine ⟨?_, ?_, ?_, ?_⟩
  · simp [img100x50, Img.height]
  · simp [img100x50, Img.width, List.replicate_succ]
  · intro row hrow
    rw [List.eq_of_mem_replicate hrow]
    simp [img100x50, Img.width, List.replicate_succ]
  · intro row hrow p hp
    rw [List.eq_of_mem_replicate hrow] at hp
    rw [List.eq_of_mem_replicate hp]
    norm_num

/-- Witness for C2: the spec's 100×50 image preprocessed with target
size `(224, 224)` yields shape `(1, 224, 224, 3)` with entries in
`[0, 1]`. -/
theorem preprocess_image_bytes_spec_witness :
    Img.WF img100x50 ∧
    preprocess_image_bytes (some img100x50) (224, 224)
      = some (preprocess_core img100x50 (224, 224)) ∧
    (HasShape4 (preprocess_core img100x50 (224, 224)) 1 224 224 3 ∧
      AllInUnit (preprocess_core img100x50 (224, 224))) :=
  ⟨img100x50_wf, rfl,
    preprocess_image_bytes_spec img100x50 224 224 _ img100x50_wf rfl⟩

theorem processEntry_some_some (env : Env) (info : EntryInfo) (p l : String)
    (hp : info.path = some p) (hl : info.labels = some l) :
    ∃ o, processEntry env info = .ok o := by
  unfold processEntry
  rw [hp, hl]
  simp only [normpath]
  by_cases h1 : p = "" ∨ env.exists_ p = false
  · rw [if_pos h1]; exact ⟨none, rfl⟩
  · rw [if_neg h1]
    by_cases h2 : l = "" ∨ env.exists_ l = false
    · rw [if_pos h2]; exact ⟨none, rfl⟩
    · rw [if_neg h2]
      cases hk : env.loadKerasModel p with
      | none => exact ⟨none, rfl⟩
      | some mo =>
        show ∃ o, (match env.readLabels l with
          | none => Except.ok none
          | some lj =>
            match parseLabelsJson lj with
            | none => Except.ok none
            | some labels =>
              Except.ok (some ⟨mo, labels, info.target_size.getD [224, 224]⟩)) = Except.ok o
        cases hr : env.readLabels l with
        | none => exact ⟨none, rfl⟩
        | some lj =>
          show ∃ o, (match parseLabelsJson lj with
            | none => Except.ok none
            | some labels =>
              Except.ok (some ⟨mo, labels, info.target_size.getD [224, 224]⟩)) = Except.ok o
          cases hpl : parseLabelsJson lj with
          | none => exact ⟨none, rfl⟩
          | some labels =>
            exact ⟨some ⟨mo, labels, info.target_size.getD [224, 224]⟩, rfl⟩

theorem processEntry_typeError (env : Env) (info : EntryInfo)
    (h : info.path = none ∨ info.labels = none) :
    processEntry env info = .error .typeError := by
  unfold processEntry
  rcases h with h | h
  · rw [h]; rfl
  · cases hp : info.path with
    | none => rfl
    | some p => rw [h]; rfl

theorem processEntry_error_eq (env : Env) (info : EntryInfo) (e : LoadErr)
    (h : processEntry env info = .error e) : e = .typeError := by
  cases hp : info.path with
  | none =>
    unfold processEntry at h
    rw [hp] at h
    simp only [normpath, Except.error.injEq] at h
    exact h.symm
  | some p =>
    cases hl : info.labels with
    | none =>
      unfold processEntry at h
      rw [hp, hl] at h
      simp only [normpath, Except.error.injEq] at h
      exact h.symm
    | some l =>
      obtain ⟨o, ho⟩ := processEntry_some_some env info p l hp hl
      rw [ho] at h
      exact absurd h (by simp)

theorem processAll_error_eq (env : Env) (cfg : List (String × EntryInfo)) (e : LoadErr)
    (h : processAll env cfg = .error e) : e = .typeError := by
  induction cfg with
  | nil => simp [processAll] at h
  | cons hd tl ih =>
    obtain ⟨k0, i0⟩ := hd
    simp only [processAll] at h
    cases hpe : processEntry env i0 with
    | error e2 =>
      rw [hpe] at h
      injection h with h2
      subst h2
      exact processEntry_error_eq env i0 _ hpe
    | ok o =>
      rw [hpe] at h
      cases o with
      | none => exact ih h
      | some entry =>
        cases hpa : processAll env tl with
        | error e2 =>
          rw [hpa] at h
          injection h with h2
          subst h2
          exact ih hpa
        | ok ms =>
          rw [hpa] at h
          exact absurd h (by simp)

theorem processAll_skip (env : Env) (key : String) (info : EntryInfo)
    (hskip : processEntry env info = .ok none) (pre post : List (String × EntryInfo)) :
    processAll env (pre ++ (key, info) :: post) = processAll env (pre ++ post) := by
  induction pre with
  | nil => simp only [List.nil_append, processAll, hskip]
  | cons hd tl ih =>
    obtain ⟨k0, i0⟩ := hd
    cases hpe : processEntry env i0 with
    | error e => simp only [List.cons_append, processAll, hpe]
    | ok o =>
      cases o with
      | none =>
        simp only [List.cons_append, processAll, hpe]
        exact ih
      | some entry =>
        simp only [List.cons_append, processAll, hpe]
        have ih2 : processAll env (tl.append ((key, info) :: post))
            = processAll env (tl.append post) := ih
        rw [ih2]

theorem processAll_insert (env : Env) (key : String) (info : EntryInfo) (e : LoadedEntry)
    (hins : processEntry env info = .ok (some e)) (rest : List (String × EntryInfo)) :
    processAll env ((key, info) :: rest) =
      (processAll env rest).map (fun ms => (key, e) :: ms) := by
  simp only [processAll, hins]
  cases processAll env rest <;> rfl

/-- C4: `load_models` fails with `NoModelsLoaded` exactly when the result
mapping is empty after all entries are processed; every mapping it
returns is non-empty. -/
theorem load_models_nonempty_spec (env : Env) (cfgPath : String)
    (cfg : List (String × EntryInfo)) :
    (load_models env cfgPath cfg = .error .noModelsLoaded ↔
      env.exists_ cfgPath = true ∧ processAll env cfg = .ok []) ∧
    ∀ ms, load_models env cfgPath cfg = .ok ms → ms ≠ [] := by
  unfold load_models
  cases hex : env.exists_ cfgPath with
  | false => simp
  | true =>
    simp only [Bool.true_eq_false, if_false, true_and]
    cases hpa : processAll env cfg with
    | error e =>
      have he := processAll_error_eq env cfg e hpa
      subst he
      simp
    | ok ms =>
      cases ms with
      | nil => simp
      | cons a tl =>
        simp only [List.isEmpty_cons, Bool.false_eq_true, if_false]
        constructor
        · simp
        · intro ms2 hms2
          injection hms2 with h2
          subst h2
          simp

/-- Witness for C4: an environment where the config exists but no entry
loads, with the empty config, fails with `NoModelsLoaded`. -/
theorem load_models_nonempty_spec_witness :
    envNoLoad.exists_ "models/model_config.json" = true ∧
    processAll envNoLoad [] = .ok [] ∧
    load_models envNoLoad "models/model_config.json" [] = .error .noModelsLoaded :=
  ⟨rfl, rfl,
    (load_models_nonempty_spec envNoLoad "models/model_config.json" []).1.mpr ⟨rfl, rfl⟩⟩

/-- C7: `load_models` fails with `ConfigNotFound` if and only if the
config file itself does not exist, and in that case the result does not
depend on the config entries at all (no entry is processed). -/
theorem load_models_config_not_found_spec (env : Env) (cfgPath : String)
    (cfg : List (String × EntryInfo)) :
    (load_models env cfgPath cfg = .error .configNotFound ↔
      env.exists_ cfgPath = false) ∧
    (env.exists_ cfgPath = false →
      ∀ cfg2, load_models env cfgPath cfg = load_models env cfgPath cfg2) := by
  constructor
  · unfold load_models
    cases hex : env.exists_ cfgPath with
    | false => simp
    | true =>
      simp only [Bool.true_eq_false, if_false]
      cases hpa : processAll env cfg with
      | error e =>
        have he := processAll_error_eq env cfg e hpa
        subst he
        simp
      | ok ms => cases ms <;> simp
  · intro hex cfg2
    unfold load_models
    rw [hex]
    simp

/-- Witness for C7 at a concrete environment with no files. -/
theorem load_models_config_not_found_spec_witness :
    envNothing.exists_ "models/model_config.json" = false ∧
    load_models envNothing "models/model_config.json"
        [("plant", ⟨some "m.h5", some "lab.json", none⟩)] =
      load_models envNothing "models/model_config.json" [] :=
  ⟨rfl,
    (load_models_config_not_found_spec envNothing "models/model_config.json"
      [("plant", ⟨some "m.h5", some "lab.json", none⟩)]).2 rfl []⟩

/-- C5: an entry whose model file or labels file does not exist, or whose
model artifact fails to load, is skipped and processing continues with
the remaining entries unchanged; entries that do load successfully are
inserted into the result mapping. -/
theorem load_models_skip_entry_spec (env : Env) (key : String) (info : EntryInfo)
    (p l : String) (hp : info.path = some p) (hl : info.labels = some l)
    (hbad : env.exists_ p = false ∨ env.exists_ l = false ∨
      env.loadKerasModel p = none)
    (pre post : List (String × EntryInfo)) :
    processEntry env info = .ok none ∧
    processAll env (pre ++ (key, info) :: post) = processAll env (pre ++ post) ∧
    ∀ (key2 : String) (info2 : EntryInfo) (e2 : LoadedEntry)
      (rest : List (String × EntryInfo)),
      processEntry env info2 = .ok (some e2) →
      processAll env ((key2, info2) :: rest) =
        (processAll env rest).map (fun ms => (key2, e2) :: ms) := by
  have hskip : processEntry env info = .ok none := by
    unfold processEntry
    rw [hp, hl]
    simp only [normpath]
    rcases hbad with hb | hb | hb
    · rw [if_pos (Or.inr hb)]
    · by_cases h1 : p = "" ∨ env.exists_ p = false
      · rw [if_pos h1]
      · rw [if_neg h1, if_pos (Or.inr hb)]
    · by_cases h1 : p = "" ∨ env.exists_ p = false
      · rw [if_pos h1]
      · rw [if_neg h1]
        by_cases h2 : l = "" ∨ env.exists_ l = false
        · rw [if_pos h2]
        · rw [if_neg h2, hb]
  exact ⟨hskip, processAll_skip env key info hskip pre post,
    fun k2 i2 e2 rest h => processAll_insert env k2 i2 e2 h rest⟩

/-- Witness for C5: a missing model file makes the entry be skipped. -/
theorem load_models_skip_entry_spec_witness :
    (⟨some "m.h5", some "lab.json", none⟩ : EntryInfo).path = some "m.h5" ∧
    (⟨some "m.h5", some "lab.json", none⟩ : EntryInfo).labels = some "lab.json" ∧
    envNothing.exists_ "m.h5" = false ∧
    processEntry envNothing ⟨some "m.h5", some "lab.json", none⟩ = .ok none :=
  ⟨rfl, rfl, rfl,
    (load_models_skip_entry_spec envNothing "rice" ⟨some "m.h5", some "lab.json", none⟩
      "m.h5" "lab.json" rfl rfl (Or.inl rfl) [] []).1⟩

/-- C10: a config entry missing its `"path"` or `"labels"` key makes
`os.path.normpath(None)` raise an uncaught `TypeError`, aborting the
whole `load_models` call instead of skipping the entry. -/
theorem load_models_missing_key_spec (env : Env) (cfgPath : String)
    (pre post : List (String × EntryInfo)) (key : String) (info : EntryInfo)
    (ms : List (String × LoadedEntry))
    (hmiss : info.path = none ∨ info.labels = none)
    (hex : env.exists_ cfgPath = true)
    (hpre : processAll env pre = .ok ms) :
    processEntry env info = .error .typeError ∧
    load_models env cfgPath (pre ++ (key, info) :: post) = .error .typeError := by
  have hte := processEntry_typeError env info hmiss
  have hall : processAll env (pre ++ (key, info) :: post) = .error .typeError := by
    induction pre generalizing ms with
    | nil => simp only [List.nil_append, processAll, hte]
    | cons hd tl ih =>
      obtain ⟨k0, i0⟩ := hd
      simp only [processAll] at hpre
      cases hpe : processEntry env i0 with
      | error e =>
        rw [hpe] at hpre
        exact absurd hpre (by simp)
      | ok o =>
        rw [hpe] at hpre
        cases o with
        | none =>
          simp only [List.cons_append, processAll, hpe]
          exact ih ms hpre
        | some entry =>
          cases hpa : processAll env tl with
          | error e =>
            rw [hpa] at hpre
            exact absurd hpre (by simp)
          | ok ms2 =>
            simp only [List.cons_append, processAll, hpe]
            have h3 : processAll env (tl.append ((key, info) :: post))
                = .error .typeError := ih ms2 hpa
            rw [h3]
  refine ⟨hte, ?_⟩
  unfold load_models
  rw [hex, hall]
  simp

/-- Witness for C10: an entry without `"path"` aborts the whole load with
the `TypeError`. -/
theorem load_models_missing_key_spec_witness :
    ((⟨none, some "lab.json", none⟩ : EntryInfo).path = none ∨
      (⟨none, some "lab.json", none⟩ : EntryInfo).labels = none) ∧
    envNoLoad.exists_ "cfg.json" = true ∧
    processAll envNoLoad [] = .ok [] ∧
    load_models envNoLoad "cfg.json" [("plant", ⟨none, some "lab.json", none⟩)] =
      .error .typeError :=
  ⟨Or.inl rfl, rfl, rfl,
    (load_models_missing_key_spec envNoLoad "cfg.json" [] [] "plant"
      ⟨none, some "lab.json", none⟩ [] (Or.inl rfl) rfl rfl).2⟩

theorem mapM_option_spec {α β : Type} (f : α → Option β) (l : List α) (L : List β)
    (h : l.mapM f = some L) :
    L.length = l.length ∧
    ∀ i (hi : i < l.length) (hi2 : i < L.length),
      f (l.get ⟨i, hi⟩) = some (L.get ⟨i, hi2⟩) := by
  induction l generalizing L with
  | nil =>
    simp only [List.mapM_nil, Option.pure_def, Option.some.injEq] at h
    subst h
    exact ⟨rfl, fun i hi => absurd hi (by simp)⟩
  | cons a t ih =>
    rw [List.mapM_cons] at h
    simp only [Option.pure_def, Option.bind_eq_bind, Option.bind_eq_some,
      Option.some.injEq] at h
    obtain ⟨b, hb, bs, hbs, hL⟩ := h
    subst hL
    obtain ⟨ihl, ihe⟩ := ih bs hbs
    refine ⟨by simp [ihl], ?_⟩
    intro i hi hi2
    cases i with
    | zero => exact hb
    | succ n =>
      exact ihe n (by simpa using hi) (by simpa using hi2)

theorem mapM_option_none {α β : Type} (f : α → Option β) (l : List α) (a : α)
    (ha : a ∈ l) (hf : f a = none) : l.mapM f = none := by
  induction l with
  | nil => simp at ha
  | cons b t ih =>
    rw [List.mapM_cons]
    rcases List.mem_cons.mp ha with rfl | ha2
    · simp [hf]
    · cases hfb : f b with
      | none => simp
      | some x =>
        have ih2 : List.mapM.loop f t [] = none := ih ha2
        simp [hfb, ih ha2, ih2]

/-- C6: the labels file parsing accepts a JSON array (kept in order) or a
JSON object keyed by the stringified consecutive integers
`"0" .. "N-1"` (converted to the sequence whose `i`-th element is the
value at key `str(i)`); a missing index key or any other JSON shape
makes the parse fail, and a failed parse makes the entry be skipped. -/
theorem labels_parsing_spec :
    (∀ xs, parseLabelsJson (.arr xs) = some xs) ∧
    (∀ kvs L, parseLabelsJson (.obj kvs) = some L →
      L.length = kvs.length ∧
      ∀ i (hi2 : i < L.length),
        kvs.lookup (toString i) = some (L.get ⟨i, hi2⟩)) ∧
    (∀ kvs i, i < kvs.length → kvs.lookup (toString i) = none →
      parseLabelsJson (.obj kvs) = none) ∧
    parseLabelsJson .other = none ∧
    (∀ (env : Env) (info : EntryInfo) (p l : String) (mo : Nat) (lj : LabelsJson),
      info.path = some p → info.labels = some l →
      env.exists_ p = true → p ≠ "" → env.exists_ l = true → l ≠ "" →
      env.loadKerasModel p = some mo → env.readLabels l = some lj →
      parseLabelsJson lj = none →
      processEntry env info = .ok none) := by
  refine ⟨fun xs => rfl, ?_, ?_, rfl, ?_⟩
  · intro kvs L h
    simp only [parseLabelsJson] at h
    obtain ⟨hlen, helt⟩ := mapM_option_spec _ _ _ h
    have hlen2 : L.length = kvs.length := by simpa using hlen
    refine ⟨hlen2, ?_⟩
    intro i hi2
    have hi : i < (List.range kvs.length).length := by
      simpa using hlen2 ▸ hi2
    have := helt i hi hi2
    simpa using this
  · intro kvs i hi hnone
    simp only [parseLabelsJson]
    exact mapM_option_none _ _ i (by simpa using hi) hnone
  · intro env info p l mo lj hp hl hpe hpne hle hlne hk hr hpl
    unfold processEntry
    rw [hp, hl]
    simp only [normpath]
    rw [if_neg (by simp [hpne, hpe]), if_neg (by simp [hlne, hle]), hk]
    show (match env.readLabels l with
      | none => Except.ok none
      | some lj =>
        match parseLabelsJson lj with
        | none => Except.ok none
        | some labels =>
          Except.ok (some
            (LoadedEntry.mk mo labels (info.target_size.getD [224, 224]))))
      = Except.ok none
    rw [hr]
    show (match parseLabelsJson lj with
      | none => Except.ok none
      | some labels =>
        Except.ok (some
          (LoadedEntry.mk mo labels (info.target_size.getD [224, 224]))))
      = Except.ok none
    rw [hpl]

/-- Witness for C6: a two-element indexed object parses in index order,
and an object whose keys are not `"0" .. "N-1"` fails to parse. -/
theorem labels_parsing_spec_witness :
    parseLabelsJson (.obj [("0", "a"), ("1", "b")]) = some ["a", "b"] ∧
    (0 < ([("1", "x")] : List (String × String)).length ∧
      List.lookup (toString 0) [("1", "x")] = none ∧
      parseLabelsJson (.obj [("1", "x")]) = none) :=
  ⟨by decide,
    by norm_num, by decide,
    labels_parsing_spec.2.2.1 [("1", "x")] 0 (by norm_num) (by decide)⟩

theorem argmaxGo_lt (xs : List ℚ) (i bi : Nat) (bv : ℚ) (hbi : bi < i) :
    argmaxGo xs i bi bv < i + xs.length := by
  induction xs generalizing i bi bv with
  | nil => simpa using hbi
  | cons x t ih =>
    simp only [argmaxGo]
    split
    · have h2 := ih (i + 1) i x (by omega)
      simp only [List.length_cons]
      omega
    · have h2 := ih (i + 1) bi bv (by omega)
      simp only [List.length_cons]
      omega

theorem argmax_lt_length (l : List ℚ) (idx : Nat) (h : argmax l = some idx) :
    idx < l.length := by
  cases l with
  | nil => simp [argmax] at h
  | cons x xs =>
    simp only [argmax, Option.some.injEq] at h
    subst h
    have h2 := argmaxGo_lt xs 1 0 x (by omega)
    simp only [List.length_cons]
    omega

theorem roundHalfEven_intCast (n : ℤ) : roundHalfEven (n : ℚ) = n := by
  unfold roundHalfEven
  rw [Int.floor_intCast]
  rw [if_pos (by norm_num)]

theorem roundHalfEven_bounds (x : ℚ) (h0 : 0 ≤ x) (h1 : x ≤ 10000) :
    0 ≤ roundHalfEven x ∧ roundHalfEven x ≤ 10000 := by
  have hf0 : (0 : ℤ) ≤ ⌊x⌋ := Int.floor_nonneg.mpr h0
  have hfu : ⌊x⌋ ≤ 10000 := by
    have h2 : (⌊x⌋ : ℚ) ≤ 10000 := le_trans (Int.floor_le x) h1
    exact_mod_cast h2
  have hsucc : ¬ (x - ⌊x⌋ < 1 / 2) → ⌊x⌋ + 1 ≤ 10000 := by
    intro hge
    push_neg at hge
    by_contra hc
    push_neg at hc
    have hq : ⌊x⌋ = 10000 := by omega
    rw [hq] at hge
    have h3 : x - ((10000 : ℤ) : ℚ) ≤ 0 := by push_cast; linarith
    linarith
  unfold roundHalfEven
  split
  · exact ⟨hf0, hfu⟩
  · rename_i hge
    split
    · exact ⟨by omega, hsucc hge⟩
    · split
      · exact ⟨hf0, hfu⟩
      · exact ⟨by omega, hsucc hge⟩

theorem round4_mem_unit (q : ℚ) (h0 : 0 ≤ q) (h1 : q ≤ 1) :
    0 ≤ round4 q ∧ round4 q ≤ 1 := by
  obtain ⟨hr0, hr1⟩ := roundHalfEven_bounds (q * 10000) (by positivity) (by nlinarith)
  unfold round4
  constructor
  · apply div_nonneg _ (by norm_num)
    exact_mod_cast hr0
  · rw [div_le_one (by norm_num)]
    have h2 : ((roundHalfEven (q * 10000) : ℚ)) ≤ ((10000 : ℤ) : ℚ) := by
      exact_mod_cast hr1
    simpa using h2

theorem round4_eq_of_mul_eq_intCast (q : ℚ) (n : ℤ) (h : q * 10000 = (n : ℚ)) :
    round4 q = (n : ℚ) / 10000 := by
  unfold round4
  rw [h, roundHalfEven_intCast]

theorem predict_eval (models : List (String × PModelEntry))
    (crop contentType : String) (img : Img) (m : PModelEntry) (idx : Nat)
    (lab : String)
    (hct : pyStartsWith contentType "image/" = true)
    (hm : models.lookup (choose_model_key_from_crop crop) = some m)
    (hidx : argmax (m.forward (preprocess_core img m.target_size)) = some idx)
    (hlab : m.labels.get? idx = some lab) :
    predict models crop contentType (some img) =
      .ok ⟨crop, choose_model_key_from_crop crop, lab,
        round4 ((m.forward (preprocess_core img m.target_size)).getD idx 0)⟩ := by
  unfold predict
  rw [hct, if_neg (by simp), hm]
  show predictCore crop (choose_model_key_from_crop crop) m img = _
  unfold predictCore
  rw [hidx]
  show (match m.labels.get? idx with
    | none => Except.error PredictErr.indexError
    | some label =>
      Except.ok (PredictionResult.mk crop (choose_model_key_from_crop crop) label
        (round4 ((m.forward (preprocess_core img m.target_size)).getD idx 0))))
    = _
  rw [hlab]

theorem predict_eval_index_error (models : List (String × PModelEntry))
    (crop contentType : String) (img : Img) (m : PModelEntry) (idx : Nat)
    (hct : pyStartsWith contentType "image/" = true)
    (hm : models.lookup (choose_model_key_from_crop crop) = some m)
    (hidx : argmax (m.forward (preprocess_core img m.target_size)) = some idx)
    (hlab : m.labels.get? idx = none) :
    predict models crop contentType (some img) = .error .indexError := by
  unfold predict
  rw [hct, if_neg (by simp), hm]
  show predictCore crop (choose_model_key_from_crop crop) m img = _
  unfold predictCore
  rw [hidx]
  show (match m.labels.get? idx with
    | none => Except.error PredictErr.indexError
    | some label =>
      Except.ok (PredictionResult.mk crop (choose_model_key_from_crop crop) label
        (round4 ((m.forward (preprocess_core img m.target_size)).getD idx 0))))
    = _
  rw [hlab]

theorem predict_ct_ok_ne (models : List (String × PModelEntry))
    (crop ct : String) (decoded : Option Img)
    (hct : pyStartsWith ct "image/" = true) :
    predict models crop ct decoded ≠ .error .invalidContentType := by
  unfold predict
  rw [hct, if_neg (by simp)]
  cases hm : models.lookup (choose_model_key_from_crop crop) with
  | none => simp
  | some m =>
    cases decoded with
    | none => simp
    | some img =>
      show predictCore crop (choose_model_key_from_crop crop) m img ≠ _
      unfold predictCore
      cases hidx : argmax (m.forward (preprocess_core img m.target_size)) with
      | none => simp
      | some idx =>
        show (match m.labels.get? idx with
          | none => Except.error PredictErr.indexError
          | some label =>
            Except.ok (PredictionResult.mk crop (choose_model_key_from_crop crop) label
              (round4 ((m.forward (preprocess_core img m.target_size)).getD idx 0))))
          ≠ Except.error PredictErr.invalidContentType
        cases hlab : m.labels.get? idx with
        | none => simp
        | some lab => simp

/-- C3 (amended): for every successful `predict` call, the returned
confidence is exactly the raw score at the argmax index of the flattened
model output, rounded to 4 decimal places, with no softmax applied; it
lies in `[0, 1]` whenever the model's raw output values all lie in
`[0, 1]` (the code itself never normalises, so an un-normalised model
can return a confidence outside `[0, 1]`). -/
theorem predict_confidence_spec (models : List (String × PModelEntry))
    (crop contentType : String) (img : Img) (m : PModelEntry) (idx : Nat)
    (lab : String)
    (hct : pyStartsWith contentType "image/" = true)
    (hm : models.lookup (choose_model_key_from_crop crop) = some m)
    (hidx : argmax (m.forward (preprocess_core img m.target_size)) = some idx)
    (hlab : m.labels.get? idx = some lab) :
    predict models crop contentType (some img) =
      .ok ⟨crop, choose_model_key_from_crop crop, lab,
        round4 ((m.forward (preprocess_core img m.target_size)).getD idx 0)⟩ ∧
    ((∀ v ∈ m.forward (preprocess_core img m.target_size), 0 ≤ v ∧ v ≤ 1) →
      0 ≤ round4 ((m.forward (preprocess_core img m.target_size)).getD idx 0) ∧
      round4 ((m.forward (preprocess_core img m.target_size)).getD idx 0) ≤ 1) := by
  refine ⟨predict_eval models crop contentType img m idx lab hct hm hidx hlab, ?_⟩
  intro hb
  rcases getD_mem_or (m.forward (preprocess_core img m.target_size)) idx 0 with h | h
  · rw [h]
    exact round4_mem_unit 0 le_rfl (by norm_num)
  · obtain ⟨h0, h1⟩ := hb _ h
    exact round4_mem_unit _ h0 h1

/-- Witness for C3 at a model whose raw outputs lie in `[0, 1]`. -/
theorem predict_confidence_spec_witness :
    pyStartsWith "image/png" "image/" = true ∧
    List.lookup (choose_model_key_from_crop "maize") [("plant", eWide)]
      = some eWide ∧
    argmax (eWide.forward (preprocess_core img1 eWide.target_size)) = some 1 ∧
    eWide.labels.get? 1 = some "b" ∧
    predict [("plant", eWide)] "maize" "image/png" (some img1) =
      .ok ⟨"maize", choose_model_key_from_crop "maize", "b",
        round4 ((eWide.forward (preprocess_core img1 eWide.target_size)).getD 1 0)⟩ := by
  have hct : pyStartsWith "image/png" "image/" = true := by decide
  have hkey : choose_model_key_from_crop "maize" = "plant" := by decide
  have hm : List.lookup (choose_model_key_from_crop "maize") [("plant", eWide)]
      = some eWide := by rw [hkey]; simp [List.lookup]
  have hidx : argmax (eWide.forward (preprocess_core img1 eWide.target_size))
      = some 1 := by
    show argmax [1 / 4, 3 / 4] = some 1
    simp only [argmax, argmaxGo]
    rw [if_pos (by norm_num)]
  exact ⟨hct, hm, hidx, rfl,
    (predict_confidence_spec [("plant", eWide)] "maize" "image/png" img1 eWide 1 "b"
      hct hm hidx rfl).1⟩

/-- Counterexample to C3 as stated: a model emitting a raw score of
`5/2` makes `predict` return confidence `5/2 ∉ [0, 1]`. -/
theorem predict_confidence_counterexample :
    predict [("plant", eRaw)] "wheat" "image/png" (some img1) =
      .ok ⟨"wheat", "plant", "a", 5 / 2⟩ ∧ ¬ ((5 : ℚ) / 2 ≤ 1) := by
  have hct : pyStartsWith "image/png" "image/" = true := by decide
  have hkey : choose_model_key_from_crop "wheat" = "plant" := by decide
  have hm : List.lookup (choose_model_key_from_crop "wheat") [("plant", eRaw)]
      = some eRaw := by rw [hkey]; simp [List.lookup]
  have hidx : argmax (eRaw.forward (preprocess_core img1 eRaw.target_size))
      = some 0 := by
    show argmax [5 / 2, 1 / 4] = some 0
    simp only [argmax, argmaxGo]
    rw [if_neg (by norm_num)]
  have heval := predict_eval [("plant", eRaw)] "wheat" "image/png" img1 eRaw 0 "a"
    hct hm hidx rfl
  have hconf : round4 ((eRaw.forward (preprocess_core img1 eRaw.target_size)).getD 0 0)
      = 5 / 2 := by
    show round4 (((5 : ℚ) / 2 :: [1 / 4]).getD 0 0) = 5 / 2
    rw [List.getD_cons_zero]
    rw [round4_eq_of_mul_eq_intCast (5 / 2) 25000 (by norm_num)]
    norm_num
  rw [heval, hkey, hconf]
  exact ⟨rfl, by norm_num⟩

/-- C8: `predict` fails with `InvalidContentType` exactly when the
declared content type does not start with `"image/"`, and in that case
the outcome does not depend on the registry, the crop, or the uploaded
bytes at all — no routing, reading or inference happens. -/
theorem predict_content_type_spec (models : List (String × PModelEntry))
    (crop ct : String) (decoded : Option Img) :
    (predict models crop ct decoded = .error .invalidContentType ↔
      pyStartsWith ct "image/" = false) ∧
    (pyStartsWith ct "image/" = false →
      ∀ (models2 : List (String × PModelEntry)) (crop2 : String)
        (decoded2 : Option Img),
        predict models crop ct decoded = predict models2 crop2 ct decoded2) := by
  constructor
  · constructor
    · intro he
      cases h : pyStartsWith ct "image/" with
      | false => rfl
      | true => exact absurd he (predict_ct_ok_ne models crop ct decoded h)
    · intro hf
      unfold predict
      rw [hf, if_pos rfl]
  · intro hf models2 crop2 decoded2
    unfold predict
    rw [hf, if_pos rfl, if_pos rfl]

/-- Witness for C8 at the content type `"text/plain"`. -/
theorem predict_content_type_spec_witness :
    pyStartsWith "text/plain" "image/" = false ∧
    predict [] "wheat" "text/plain" none =
      predict [("plant", eRaw)] "Rice Paddy" "text/plain" (some img1) :=
  ⟨by decide, (predict_content_type_spec [] "wheat" "text/plain" none).2 (by decide)
    [("plant", eRaw)] "Rice Paddy" (some img1)⟩

/-- C9 (amended): after routing and decoding, with `idx` the argmax of
the flattened model output (always `< ` the output width), the unguarded
label lookup makes `predict` fail with the `IndexError` condition
exactly when `idx` is out of range of the label list — which can happen
when the labels are fewer than the model's output width, but not merely
because the two lengths differ. -/
theorem predict_index_error_spec (models : List (String × PModelEntry))
    (crop contentType : String) (img : Img) (m : PModelEntry) (idx : Nat)
    (hct : pyStartsWith contentType "image/" = true)
    (hm : models.lookup (choose_model_key_from_crop crop) = some m)
    (hidx : argmax (m.forward (preprocess_core img m.target_size)) = some idx) :
    (predict models crop contentType (some img) = .error .indexError ↔
      m.labels.length ≤ idx) ∧
    idx < (m.forward (preprocess_core img m.target_size)).length := by
  refine ⟨⟨?_, ?_⟩, argmax_lt_length _ _ hidx⟩
  · intro he
    by_contra hlt
    push_neg at hlt
    have hsome := List.get?_eq_get hlt
    rw [predict_eval models crop contentType img m idx _ hct hm hidx hsome] at he
    exact absurd he (by simp)
  · intro hle
    exact predict_eval_index_error models crop contentType img m idx hct hm hidx
      (List.get?_eq_none.mpr hle)

/-- Witness for C9: one label against an output of width 2 whose argmax
is index 1 raises the `IndexError` condition. -/
theorem predict_index_error_spec_witness :
    pyStartsWith "image/png" "image/" = true ∧
    List.lookup (choose_model_key_from_crop "maize") [("plant", eShort)]
      = some eShort ∧
    argmax (eShort.forward (preprocess_core img1 eShort.target_size)) = some 1 ∧
    predict [("plant", eShort)] "maize" "image/png" (some img1) =
      .error .indexError := by
  have hct : pyStartsWith "image/png" "image/" = true := by decide
  have hkey : choose_model_key_from_crop "maize" = "plant" := by decide
  have hm : List.lookup (choose_model_key_from_crop "maize") [("plant", eShort)]
      = some eShort := by rw [hkey]; simp [List.lookup]
  have hidx : argmax (eShort.forward (preprocess_core img1 eShort.target_size))
      = some 1 := by
    show argmax [1 / 4, 3 / 4] = some 1
    simp only [argmax, argmaxGo]
    rw [if_pos (by norm_num)]
  exact ⟨hct, hm, hidx,
    (predict_index_error_spec [("plant", eShort)] "maize" "image/png" img1 eShort 1
      hct hm hidx).1.mpr (Nat.le_refl 1)⟩

/-- Counterexample to C9 as stated: three labels against a model of
output width 2 (lengths differ), yet the call succeeds because the
argmax index 1 is within the label list. -/
theorem predict_index_error_counterexample :
    predict [("plant", eWide)] "maize" "image/png" (some img1) =
      .ok ⟨"maize", "plant", "b", 3 / 4⟩ ∧
    eWide.labels.length = 3 ∧
    (eWide.forward (preprocess_core img1 eWide.target_size)).length = 2 := by
  have hct : pyStartsWith "image/png" "image/" = true := by decide
  have hkey : choose_model_key_from_crop "maize" = "plant" := by decide
  have hm : List.lookup (choose_model_key_from_crop "maize") [("plant", eWide)]
      = some eWide := by rw [hkey]; simp [List.lookup]
  have hidx : argmax (eWide.forward (preprocess_core img1 eWide.target_size))
      = some 1 := by
    show argmax [1 / 4, 3 / 4] = some 1
    simp only [argmax, argmaxGo]
    rw [if_pos (by norm_num)]
  have heval := predict_eval [("plant", eWide)] "maize" "image/png" img1 eWide 1 "b"
    hct hm hidx rfl
  have hconf : round4 ((eWide.forward (preprocess_core img1 eWide.target_size)).getD 1 0)
      = 3 / 4 := by
    show round4 (((1 : ℚ) / 4 :: [3 / 4]).getD 1 0) = 3 / 4
    rw [List.getD_cons_succ, List.getD_cons_zero]
    rw [round4_eq_of_mul_eq_intCast (3 / 4) 7500 (by norm_num)]
    norm_num
  rw [heval, hkey, hconf]
  exact ⟨rfl, rfl, rfl⟩
